import Mathlib

/-!
Shallow embedding of the aggregation core of `src/app.py` (an advertising
dashboard): filter application (`apply_filters`), per-metric date aggregation
and outer-join merge (`aggregate_data`), and the y-axis range computation of
`plot_metric`.  Dates are encoded as naturals, numeric metric values as
`Option ℚ` (`none` models a missing/NaN cell; pandas sums skip missing values
and `NaN > 0` is false).  A per-date series (`groupby` result) is a list of
(date, value) pairs keyed by the sorted distinct dates, mirroring pandas
`groupby`'s sorted keys; a merged table is a list of (date, row) pairs where a
row is one `Option ℚ` per metric column (positional columns).
-/

/-- One observation of the uploaded dataset: the week-ending date, the four
categorical columns and the nine numeric metric columns of `load_data`. -/
structure Row where
  weDate : Nat
  product : String
  portfolioName : String
  matchType : String
  rtw : String
  sales : Option ℚ
  spend : Option ℚ
  units : Option ℚ
  impressions : Option ℚ
  clicks : Option ℚ
  ctr : Option ℚ
  convRate : Option ℚ
  cpc : Option ℚ
  roas : Option ℚ
deriving DecidableEq

/-- The `sum_metrics` list of `aggregate_data`. -/
def sum_metrics : List String := ["Sales", "Spend", "Units", "Impressions", "Clicks"]

/-- The `median_metrics` list of `aggregate_data`. -/
def median_metrics : List String :=
  ["Click-through Rate", "Conversion Rate", "CPC", "ROAS"]

/-- Column access `row[metric]` for the nine numeric columns. -/
def metricValue (m : String) (r : Row) : Option ℚ :=
  if m = "Sales" then r.sales
  else if m = "Spend" then r.spend
  else if m = "Units" then r.units
  else if m = "Impressions" then r.impressions
  else if m = "Clicks" then r.clicks
  else if m = "Click-through Rate" then r.ctr
  else if m = "Conversion Rate" then r.convRate
  else if m = "CPC" then r.cpc
  else if m = "ROAS" then r.roas
  else none

/-- Column access `row[col]` for the four categorical filter columns. -/
def colValue (c : String) (r : Row) : String :=
  if c = "Product" then r.product
  else if c = "Portfolio Name" then r.portfolioName
  else if c = "Match Type" then r.matchType
  else if c = "RTW/Prospecting" then r.rtw
  else ""

/-- Insert into a sorted list (ascending by `le`). -/
def insortBy (le : α → α → Bool) (x : α) : List α → List α
  | [] => [x]
  | y :: ys => if le x y then x :: y :: ys else y :: insortBy le x ys

/-- Insertion sort, ascending by `le`. -/
def sortBy (le : α → α → Bool) (l : List α) : List α :=
  l.foldr (insortBy le) []

/-- The group keys produced by pandas `groupby`: the distinct values, in
ascending order. -/
def sortedDates (ds : List Nat) : List Nat :=
  sortBy (fun a b => decide (a ≤ b)) ds.dedup

/-- The values of metric `m` present (non-missing) among the rows of date `d`:
what a pandas aggregation over the group of `d` sees. -/
def valsAt (m : String) (d : Nat) (rows : List Row) : List ℚ :=
  (rows.filter (fun r => decide (r.weDate = d))).filterMap (metricValue m)

/-- The sum branch, a groupby-sum on the date column with reset index: one entry per
distinct date of `rows`, whose value is the sum of the present values (pandas
`sum` skips missing cells). -/
def sumSeries (m : String) (rows : List Row) : List (Nat × ℚ) :=
  (sortedDates (rows.map (·.weDate))).map (fun d => (d, (valsAt m d rows).sum))

/-- The positive-value restriction of the frame: the rows whose value for `m` is present and positive
(a missing cell fails `> 0`). -/
def posRows (m : String) (rows : List Row) : List Row :=
  rows.filter (fun r =>
    match metricValue m r with
    | some v => decide (0 < v)
    | none => false)

/-- Statistical median as computed by pandas: middle element of the sorted
values for odd length, mean of the two middle elements for even length. -/
def median (l : List ℚ) : ℚ :=
  let s := sortBy (fun a b => decide (a ≤ b)) l
  if s.length % 2 = 1 then s.getD (s.length / 2) 0
  else (s.getD (s.length / 2 - 1) 0 + s.getD (s.length / 2) 0) / 2

/-- The median branch, a groupby-median over the positive rows: one entry
per distinct date among the positive rows, valued by the median of that date's
positive values. -/
def medianSeries (m : String) (rows : List Row) : List (Nat × ℚ) :=
  (sortedDates ((posRows m rows).map (·.weDate))).map
    (fun d => (d, median (valsAt m d (posRows m rows))))

/-- Lookup of date `d` in a per-date series. -/
def lookupSeries (s : List (Nat × ℚ)) (d : Nat) : Option ℚ :=
  (s.find? (fun p => p.1 == d)).map (·.2)

/-- A merged table: one row per date, one `Option ℚ` cell per metric column. -/
abbrev MergedTable := List (Nat × List (Option ℚ))

/-- A one-metric `groupby` result viewed as a one-column table. -/
def tempTable (s : List (Nat × ℚ)) : MergedTable :=
  s.map (fun p => (p.1, [some p.2]))

/-- Lookup of date `d` in a merged table. -/
def lookupT (t : MergedTable) (d : Nat) : Option (List (Option ℚ)) :=
  (t.find? (fun p => p.1 == d)).map (·.2)

/-- An outer merge of two frames on the date column: rows keyed by the
sorted union of the two key sets; a side lacking a key contributes missing
cells for its columns.  The `Nat` component carries the column count of each
operand (intrinsic to a pandas frame). -/
def merge2 (L R : Nat × MergedTable) : Nat × MergedTable :=
  (L.1 + R.1,
   (sortedDates ((L.2.map (·.1)) ++ (R.2.map (·.1)))).map (fun d =>
     (d, ((lookupT L.2 d).getD (List.replicate L.1 none)) ++
         ((lookupT R.2 d).getD (List.replicate R.1 none)))))

/-- The `for metric in selected_metrics` loop of `aggregate_data`, building
`agg_dfs`.  The accumulator is the current value of the Python local `temp`:
an unrecognized metric name falls through both branches, so the *previous*
`temp` is appended again, and if no branch has yet assigned `temp` the
`agg_dfs.append(temp)` line raises `UnboundLocalError`, modelled by `none`. -/
def buildTemps (rows : List Row) :
    List String → Option (List (Nat × ℚ)) → Option (List (List (Nat × ℚ)))
  | [], _ => some []
  | m :: ms, last =>
    if m ∈ sum_metrics then
      let t := sumSeries m rows
      (buildTemps rows ms (some t)).map (t :: ·)
    else if m ∈ median_metrics then
      let t := medianSeries m rows
      (buildTemps rows ms (some t)).map (t :: ·)
    else
      match last with
      | none => none
      | some t => (buildTemps rows ms (some t)).map (t :: ·)

/-- The reduction of `agg_dfs` by pairwise outer merge on the date column
when `agg_dfs` is nonempty, the empty frame otherwise. -/
def mergeTemps (temps : List (List (Nat × ℚ))) : MergedTable :=
  match temps with
  | [] => []
  | t :: ts =>
    ((ts.map (fun u => ((1 : Nat), tempTable u))).foldl merge2
      ((1 : Nat), tempTable t)).2

/-- The function `aggregate_data(df, selected_metrics)`; `none` models the
`UnboundLocalError` raised when the first requested metric is unrecognized. -/
def aggregate_data (rows : List Row) (selected_metrics : List String) :
    Option MergedTable :=
  (buildTemps rows selected_metrics none).map mergeTemps

/-- The `filters` dict built by `apply_filters` from the four selectbox
values: a selection other than the "All" sentinel contributes its
(column, value) pair, in widget order. -/
def buildFilters (sp spn smt srtw : String) : List (String × String) :=
  (if sp = "All" then [] else [("Product", sp)]) ++
  (if spn = "All" then [] else [("Portfolio Name", spn)]) ++
  (if smt = "All" then [] else [("Match Type", smt)]) ++
  (if srtw = "All" then [] else [("RTW/Prospecting", srtw)])

/-- The `for col, val in filters.items(): data = data[data[col] == val]`
loop of `apply_filters`. -/
def applyFiltersLoop (filters : List (String × String)) (data : List Row) :
    List Row :=
  filters.foldl (fun d cv => d.filter (fun r => decide (colValue cv.1 r = cv.2))) data

/-- The function `apply_filters` given the four selected values (the widget
state); "All" means no constraint for that column. -/
def apply_filters (sp spn smt srtw : String) (data : List Row) : List Row :=
  applyFiltersLoop (buildFilters sp spn smt srtw) data

/-- Maximum of a list of rationals, `none` on the empty list (the pandas
`max` of an empty/all-missing column is NaN, its absence here). -/
def maxQ : List ℚ → Option ℚ
  | [] => none
  | x :: xs =>
    some (match maxQ xs with
          | none => x
          | some m => max x m)

/-- The present (non-missing) values of column `j` of a merged table:
what pandas' skip-missing column `max` sees. -/
def colVals (t : MergedTable) (j : Nat) : List ℚ :=
  t.filterMap (fun p => p.2.getD j none)

/-- The per-column maxima `df[selected_metrics].max()` over the present
entries of the requested columns (columns taken by position). -/
def colMaxes (t : MergedTable) (js : List Nat) : List (Option ℚ) :=
  js.map (fun j => maxQ (colVals t j))

/-- One step of the Python builtin `max` loop over values where `none` is
NaN: the current value is replaced only when the candidate compares greater,
and every comparison against NaN is false — so a NaN current value is never
replaced, and a NaN candidate never replaces a numeric current value. -/
def pyMaxStep (cur x : Option ℚ) : Option ℚ :=
  match cur, x with
  | none, _ => none
  | some c, none => some c
  | some c, some v => some (max c v)

/-- The Python builtin `max` over the per-column maxima
(`max(df[selected_metrics].max())`): a left fold of greater-than comparisons
started at the first element.  `none` models a result that is not a real
number: NaN when the first column's maximum is NaN (an all-missing first
column), or the `ValueError` of `max` on an empty sequence. -/
def builtinMax : List (Option ℚ) → Option ℚ
  | [] => none
  | x :: xs => xs.foldl pyMaxStep x

/-- The y-axis range `[0, max(df[selected_metrics].max()) * 1.1]` set by
`plot_metric`. -/
def plot_metric_range (t : MergedTable) (js : List Nat) : Option (ℚ × ℚ) :=
  (builtinMax (colMaxes t js)).map (fun m => ((0 : ℚ), m * (11 / 10)))

/-- The per-date series `aggregate_data` computes for a recognized metric
name: the sum series for the SUM class, the median series for the MEDIAN
class. -/
def seriesFor (m : String) (rows : List Row) : List (Nat × ℚ) :=
  if m ∈ sum_metrics then sumSeries m rows else medianSeries m rows

/-- Spec reading of the MEDIAN-class preprocessing: among the rows of date
`d`, the values of metric `m` that survive discarding values `≤ 0` (a missing
value is also discarded, as it is not a positive number). -/
def posValsAt (m : String) (d : Nat) (rows : List Row) : List ℚ :=
  ((rows.filter (fun r => decide (r.weDate = d))).filterMap (metricValue m)).filter
    (fun v => decide (0 < v))

/-- The aggregated sum of metric `m` on date `d`: the entry of the sum series
at `d`, read as `0` when `d` has no entry (a date with no rows contributes
nothing to a sum). -/
def sumValue (m : String) (d : Nat) (rows : List Row) : ℚ :=
  (lookupSeries (sumSeries m rows) d).getD 0

/-- All present values of the requested columns of a merged table, pooled:
the values over which the claimed y-axis maximum ranges. -/
def allColVals (t : MergedTable) (js : List Nat) : List ℚ :=
  (js.map (colVals t)).flatten

/-- A sample row with the given date, CPC and Spend cells (the other metric
cells missing, fixed categorical values). -/
def mkRow (d : Nat) (cpc spend : Option ℚ) : Row :=
  { weDate := d, product := "P1", portfolioName := "F1", matchType := "M1",
    rtw := "R1", sales := none, spend := spend, units := none,
    impressions := none, clicks := none, ctr := none, convRate := none,
    cpc := cpc, roas := none }

/-- Sample dataset: three rows on date 6 with CPC {0, 2, 4} and Spend
{10, 20, missing}, one row on date 13 with Spend 5 and missing CPC. -/
def exRows : List Row :=
  [mkRow 6 (some 0) (some 10), mkRow 6 (some 2) (some 20),
   mkRow 6 (some 4) none, mkRow 13 none (some 5)]

/-- The spec's MEDIAN-class example: three rows on one date with
CPC = {0, 2, 4}. -/
def c3Rows : List Row :=
  [mkRow 6 (some 0) none, mkRow 6 (some 2) none, mkRow 6 (some 4) none]

/-- The spec's SUM-class example: Spend = {10, 20} on one date and
Spend = 5 on another. -/
def c4Rows : List Row :=
  [mkRow 6 none (some 10), mkRow 6 none (some 20), mkRow 13 none (some 5)]

/-- A sample merged table: two metric columns, the second lacking a value on
date 13. -/
def c9Table : MergedTable :=
  [(6, [some 30, some 3]), (13, [some 5, none])]

/-- A merged table whose first metric column is entirely missing (as an empty
MEDIAN-class frame produces after the outer merge) while the second column
holds the value 30. -/
def c9BadTable : MergedTable :=
  [(6, [none, some 30])]

/-! ### Sorting and lookup lemmas -/

theorem insortBy_perm (le : α → α → Bool) (x : α) (l : List α) :
    (insortBy le x l).Perm (x :: l) := by
  induction l with
  | nil => exact List.Perm.refl _
  | cons y ys ih =>
    rw [insortBy]
    split
    · exact List.Perm.refl _
    · exact (ih.cons y).trans (List.Perm.swap x y ys)

theorem sortBy_perm (le : α → α → Bool) (l : List α) : (sortBy le l).Perm l := by
  induction l with
  | nil => exact List.Perm.refl _
  | cons x xs ih =>
    exact (insortBy_perm le x (sortBy le xs)).trans (ih.cons x)

theorem mem_sortedDates {d : Nat} {ds : List Nat} : d ∈ sortedDates ds ↔ d ∈ ds := by
  rw [sortedDates, (sortBy_perm _ _).mem_iff, List.mem_dedup]

theorem nodup_sortedDates (ds : List Nat) : (sortedDates ds).Nodup :=
  (List.Perm.nodup_iff (sortBy_perm _ _)).mpr (List.nodup_dedup ds)

theorem find?_keyed {α : Type _} (f : Nat → α) (keys : List Nat) (d : Nat) :
    (keys.map (fun k => (k, f k))).find? (fun p => p.1 == d)
      = if d ∈ keys then some (d, f d) else none := by
  induction keys with
  | nil => rfl
  | cons k ks ih =>
    by_cases hkd : k = d
    · subst hkd
      rw [List.map_cons, List.find?_cons_of_pos _ (by simp),
        if_pos (List.mem_cons_self _ _)]
    · rw [List.map_cons, List.find?_cons_of_neg _ (by simp [hkd]), ih]
      by_cases hd : d ∈ ks
      · rw [if_pos hd, if_pos (List.mem_cons_of_mem _ hd)]
      · rw [if_neg hd, if_neg (by simp [hd, Ne.symm hkd])]

theorem lookupSeries_keyed (f : Nat → ℚ) (keys : List Nat) (d : Nat) :
    lookupSeries (keys.map (fun k => (k, f k))) d
      = if d ∈ keys then some (f d) else none := by
  rw [lookupSeries, find?_keyed]
  split <;> rfl

/-! ### Filter application -/

theorem applyFiltersLoop_eq (fs : List (String × String)) (data : List Row) :
    applyFiltersLoop fs data
      = data.filter (fun r => fs.all (fun cv => decide (colValue cv.1 r = cv.2))) := by
  induction fs generalizing data with
  | nil => simp [applyFiltersLoop]
  | cons c fs ih =>
    have h1 : applyFiltersLoop (c :: fs) data
        = applyFiltersLoop fs (data.filter (fun r => decide (colValue c.1 r = c.2))) := rfl
    rw [h1, ih, List.filter_filter]
    refine List.filter_congr (fun r _ => ?_)
    simp [Bool.and_comm]

/-- C2: filter application returns exactly the rows satisfying
`Row[column] == value` for every pair of the FilterSet (a column whose
selection is the "All" sentinel imposes no constraint), in the input's
relative order; it is a total function, so no error is raised and the empty
result is representable. -/
theorem claim_C2_filter_exact (sp spn smt srtw : String) (data : List Row) :
    apply_filters sp spn smt srtw data
      = data.filter (fun r =>
          (decide (sp = "All") || decide (r.product = sp)) &&
          ((decide (spn = "All") || decide (r.portfolioName = spn)) &&
           ((decide (smt = "All") || decide (r.matchType = smt)) &&
            (decide (srtw = "All") || decide (r.rtw = srtw))))) := by
  rw [apply_filters, applyFiltersLoop_eq]
  refine List.filter_congr (fun r _ => ?_)
  by_cases h1 : sp = "All" <;> by_cases h2 : spn = "All" <;>
    by_cases h3 : smt = "All" <;> by_cases h4 : srtw = "All" <;>
    simp [buildFilters, h1, h2, h3, h4, colValue]

/-- C6: applying the same FilterSet twice yields the same result as applying
it once. -/
theorem claim_C6_filter_idempotent (sp spn smt srtw : String) (data : List Row) :
    apply_filters sp spn smt srtw (apply_filters sp spn smt srtw data)
      = apply_filters sp spn smt srtw data := by
  rw [apply_filters, apply_filters, applyFiltersLoop_eq, applyFiltersLoop_eq,
    List.filter_filter]
  exact List.filter_congr (fun r _ => by simp)

/-- C8: aggregating an empty metric list returns the empty table
(`pd.DataFrame()`): no rows and no columns. -/
theorem claim_C8_empty_metrics (rows : List Row) :
    aggregate_data rows [] = some [] := rfl

/-! ### Per-metric series characterizations -/

theorem lookupSeries_sumSeries (m : String) (rows : List Row) (d : Nat) :
    lookupSeries (sumSeries m rows) d
      = if d ∈ rows.map (·.weDate) then some ((valsAt m d rows).sum) else none := by
  rw [sumSeries, lookupSeries_keyed]
  simp only [mem_sortedDates]

theorem lookupSeries_medianSeries (m : String) (rows : List Row) (d : Nat) :
    lookupSeries (medianSeries m rows) d
      = if d ∈ (posRows m rows).map (·.weDate)
        then some (median (valsAt m d (posRows m rows))) else none := by
  rw [medianSeries, lookupSeries_keyed]
  simp only [mem_sortedDates]

theorem mem_posRows {m : String} {rows : List Row} {r : Row} :
    r ∈ posRows m rows ↔ r ∈ rows ∧ ∃ v, metricValue m r = some v ∧ 0 < v := by
  rw [posRows, List.mem_filter]
  constructor
  · rintro ⟨h1, h2⟩
    refine ⟨h1, ?_⟩
    cases hv : metricValue m r with
    | none => rw [hv] at h2; exact absurd h2 (by simp)
    | some v => rw [hv] at h2; exact ⟨v, rfl, by simpa using h2⟩
  · rintro ⟨h1, v, hv, hpos⟩
    refine ⟨h1, ?_⟩
    rw [hv]
    simpa using hpos

theorem posValsAt_eq (m : String) (d : Nat) (rows : List Row) :
    valsAt m d (posRows m rows) = posValsAt m d rows := by
  rw [valsAt, posRows, posValsAt, List.filter_filter, List.filterMap_filter,
    List.filterMap_filter, List.filter_filterMap]
  congr 1
  funext r
  cases hv : metricValue m r with
  | none => by_cases hd : r.weDate = d <;> simp [hv, hd, Option.filter]
  | some v =>
    by_cases hd : r.weDate = d <;> by_cases hp : (0 : ℚ) < v <;>
      simp [hv, hd, hp, Option.filter]

theorem posValsAt_nil_iff (m : String) (d : Nat) (rows : List Row) :
    posValsAt m d rows = [] ↔ d ∉ (posRows m rows).map (·.weDate) := by
  rw [← posValsAt_eq]
  constructor
  · intro h hd
    rcases List.mem_map.mp hd with ⟨r, hr, hrd⟩
    rcases mem_posRows.mp hr with ⟨-, v, hv, -⟩
    have hvm : v ∈ valsAt m d (posRows m rows) := by
      rw [valsAt]
      exact List.mem_filterMap.mpr
        ⟨r, List.mem_filter.mpr ⟨hr, by simp [hrd]⟩, hv⟩
    rw [h] at hvm
    exact absurd hvm (List.not_mem_nil v)
  · intro h
    rw [valsAt, List.eq_nil_iff_forall_not_mem]
    intro v hv
    rcases List.mem_filterMap.mp hv with ⟨r, hrf, hrv⟩
    rcases List.mem_filter.mp hrf with ⟨hr, hrd⟩
    exact h (List.mem_map.mpr ⟨r, hr, by simpa using hrd⟩)

/-- C3: for a MEDIAN-class metric the series first discards the rows whose
value is missing or `≤ 0`, then takes the per-date median of the surviving
values; a date all of whose rows were discarded is absent from the series.
In particular CPC values {0, 2, 4} on one date yield median 3 there. -/
theorem claim_C3_median_positive (m : String) (hm : m ∈ median_metrics)
    (rows : List Row) (d : Nat) :
    (lookupSeries (medianSeries m rows) d
      = if posValsAt m d rows = [] then none
        else some (median (posValsAt m d rows)))
    ∧ lookupSeries (medianSeries "CPC" c3Rows) 6 = some 3 := by
  refine ⟨?_, by with_unfolding_all decide⟩
  rw [lookupSeries_medianSeries]
  by_cases h : posValsAt m d rows = []
  · rw [if_pos h, if_neg (by simpa using (posValsAt_nil_iff m d rows).mp h)]
  · rw [if_neg h, if_pos ?_, posValsAt_eq]
    by_contra hd
    exact h ((posValsAt_nil_iff m d rows).mpr hd)

theorem claim_C3_witness :
    ("CPC" ∈ median_metrics)
    ∧ ((lookupSeries (medianSeries "CPC" c3Rows) 6
        = if posValsAt "CPC" 6 c3Rows = [] then none
          else some (median (posValsAt "CPC" 6 c3Rows)))
      ∧ lookupSeries (medianSeries "CPC" c3Rows) 6 = some 3) :=
  ⟨by decide, claim_C3_median_positive "CPC" (by decide) c3Rows 6⟩

/-- C4: for a SUM-class metric the series groups rows by date and sums the
present values of the metric on each date (a missing value contributes
nothing rather than 0).  In particular Spend {10, 20} on date 6 and {5} on
date 13 yield the series {6 ↦ 30, 13 ↦ 5}. -/
theorem claim_C4_sum_by_date (m : String) (hm : m ∈ sum_metrics)
    (rows : List Row) (d : Nat) :
    (lookupSeries (sumSeries m rows) d
      = if ∃ r ∈ rows, r.weDate = d
        then some (((rows.filter (fun r => decide (r.weDate = d))).filterMap
            (metricValue m)).sum)
        else none)
    ∧ lookupSeries (sumSeries "Spend" c4Rows) 6 = some 30
    ∧ lookupSeries (sumSeries "Spend" c4Rows) 13 = some 5 := by
  refine ⟨?_, by with_unfolding_all decide, by with_unfolding_all decide⟩
  rw [lookupSeries_sumSeries, valsAt]
  refine if_congr ?_ rfl rfl
  simp [List.mem_map]

/-! ### Outer-join merge -/

theorem lookupT_keyed (g : Nat → List (Option ℚ)) (keys : List Nat) (d : Nat) :
    lookupT (keys.map (fun k => (k, g k))) d
      = if d ∈ keys then some (g d) else none := by
  rw [lookupT, find?_keyed]
  split <;> rfl

theorem lookupT_eq_none_iff (t : MergedTable) (d : Nat) :
    lookupT t d = none ↔ d ∉ t.map (·.1) := by
  rw [lookupT, Option.map_eq_none', List.find?_eq_none]
  constructor
  · intro h hd
    rcases List.mem_map.mp hd with ⟨p, hp, hpd⟩
    exact h p hp (by simpa using hpd)
  · intro h p hp hpd
    exact h (List.mem_map.mpr ⟨p, hp, by simpa using hpd⟩)

theorem lookupSeries_eq_none_iff (s : List (Nat × ℚ)) (d : Nat) :
    lookupSeries s d = none ↔ d ∉ s.map (·.1) := by
  rw [lookupSeries, Option.map_eq_none', List.find?_eq_none]
  constructor
  · intro h hd
    rcases List.mem_map.mp hd with ⟨p, hp, hpd⟩
    exact h p hp (by simpa using hpd)
  · intro h p hp hpd
    exact h (List.mem_map.mpr ⟨p, hp, by simpa using hpd⟩)

theorem tempTable_keys (s : List (Nat × ℚ)) :
    (tempTable s).map (·.1) = s.map (·.1) := by
  rw [tempTable, List.map_map]
  rfl

theorem lookupT_tempTable (s : List (Nat × ℚ)) (d : Nat) :
    lookupT (tempTable s) d = (lookupSeries s d).map (fun v => [some v]) := by
  rw [lookupT, lookupSeries, tempTable, List.find?_map, Option.map_map,
    Option.map_map]
  rfl

theorem merge2_keys (L R : Nat × MergedTable) :
    ((merge2 L R).2).map (·.1)
      = sortedDates ((L.2.map (·.1)) ++ (R.2.map (·.1))) := by
  rw [merge2]
  dsimp only
  rw [List.map_map]
  exact List.map_id _

theorem lookupT_merge2 (L R : Nat × MergedTable) (d : Nat) :
    lookupT (merge2 L R).2 d
      = if d ∈ L.2.map (·.1) ∨ d ∈ R.2.map (·.1)
        then some (((lookupT L.2 d).getD (List.replicate L.1 none)) ++
                   ((lookupT R.2 d).getD (List.replicate R.1 none)))
        else none := by
  rw [merge2]
  dsimp only
  rw [lookupT_keyed]
  refine if_congr ?_ rfl rfl
  rw [mem_sortedDates, List.mem_append]

theorem foldl_merge2_spec (ts : List (List (Nat × ℚ)))
    (acc : Nat × MergedTable) (us : List (List (Nat × ℚ)))
    (hw : acc.1 = us.length)
    (hl : ∀ d, lookupT acc.2 d
        = if ∃ t ∈ us, d ∈ t.map (·.1)
          then some (us.map (fun t => lookupSeries t d)) else none) :
    ∀ d, lookupT ((ts.map (fun u => ((1 : Nat), tempTable u))).foldl merge2 acc).2 d
        = if ∃ t ∈ us ++ ts, d ∈ t.map (·.1)
          then some ((us ++ ts).map (fun t => lookupSeries t d)) else none := by
  induction ts generalizing acc us with
  | nil =>
    intro d
    rw [List.map_nil, List.foldl_nil, List.append_nil]
    exact hl d
  | cons t ts ih =>
    have hmem : ∀ d, (d ∈ acc.2.map (·.1)) ↔ (∃ u ∈ us, d ∈ u.map (·.1)) := by
      intro d
      constructor
      · intro hd
        by_contra hc
        exact (lookupT_eq_none_iff acc.2 d).mp (by rw [hl d, if_neg hc]) hd
      · intro hc
        by_contra hd
        have h0 := (lookupT_eq_none_iff acc.2 d).mpr hd
        rw [hl d, if_pos hc] at h0
        exact Option.noConfusion h0
    have hstep : ∀ d, lookupT (merge2 acc ((1 : Nat), tempTable t)).2 d
        = if ∃ u ∈ us ++ [t], d ∈ u.map (·.1)
          then some ((us ++ [t]).map (fun u => lookupSeries u d)) else none := by
      intro d
      rw [lookupT_merge2]
      dsimp only
      rw [tempTable_keys, lookupT_tempTable, hl d, List.map_append]
      by_cases hus : ∃ u ∈ us, d ∈ u.map (·.1)
      · have hx : ∃ u ∈ us ++ [t], d ∈ u.map (·.1) := by
          rcases hus with ⟨u, hu, hd⟩
          exact ⟨u, List.mem_append_left _ hu, hd⟩
        have hright : ((lookupSeries t d).map (fun v => [some v])).getD
            (List.replicate 1 none) = [t].map (fun u => lookupSeries u d) := by
          cases hs : lookupSeries t d <;> simp [hs]
        rw [if_pos (Or.inl ((hmem d).mpr hus)), if_pos hus, Option.getD_some,
          if_pos hx, hright]
      · rw [if_neg hus, Option.getD_none]
        by_cases hts : d ∈ t.map (·.1)
        · have hleft : List.replicate acc.1 (none : Option ℚ)
              = us.map (fun u => lookupSeries u d) := by
            rw [hw, ← List.map_const']
            refine List.map_congr_left (fun u hu => ?_)
            exact ((lookupSeries_eq_none_iff u d).mpr
              (fun hd => hus ⟨u, hu, hd⟩)).symm
          have hright : ((lookupSeries t d).map (fun v => [some v])).getD
              (List.replicate 1 none) = [t].map (fun u => lookupSeries u d) := by
            cases hs : lookupSeries t d with
            | none => exact absurd hts (by
                simpa using (lookupSeries_eq_none_iff t d).mp hs)
            | some v => simp [hs]
          rw [if_pos (Or.inr hts),
            if_pos ⟨t, List.mem_append_right _ (List.mem_singleton_self t), hts⟩,
            hleft, hright]
        · have hn1 : ¬ (d ∈ acc.2.map (·.1) ∨ d ∈ t.map (·.1)) := by
            rintro (h | h)
            exacts [hus ((hmem d).mp h), hts h]
          have hn2 : ¬ ∃ u ∈ us ++ [t], d ∈ u.map (·.1) := by
            rintro ⟨u, hu, hd⟩
            rcases List.mem_append.mp hu with h | h
            · exact hus ⟨u, h, hd⟩
            · exact hts (by rwa [List.mem_singleton.mp h] at hd)
          rw [if_neg hn1, if_neg hn2]
    have hacc1 : (merge2 acc ((1 : Nat), tempTable t)).1 = (us ++ [t]).length := by
      rw [merge2]
      dsimp only
      rw [hw, List.length_append]
      rfl
    have hrest := ih (merge2 acc ((1 : Nat), tempTable t)) (us ++ [t]) hacc1 hstep
    intro d
    rw [List.map_cons, List.foldl_cons, hrest d, List.append_assoc,
      List.singleton_append]

theorem mergeTemps_spec (temps : List (List (Nat × ℚ))) (hne : temps ≠ [])
    (d : Nat) :
    lookupT (mergeTemps temps) d
      = if ∃ t ∈ temps, d ∈ t.map (·.1)
        then some (temps.map (fun t => lookupSeries t d)) else none := by
  cases temps with
  | nil => exact absurd rfl hne
  | cons t ts =>
    have hbase : ∀ d', lookupT ((1 : Nat), tempTable t).2 d'
        = if ∃ u ∈ [t], d' ∈ u.map (·.1)
          then some ([t].map (fun u => lookupSeries u d')) else none := by
      intro d'
      dsimp only
      rw [lookupT_tempTable]
      cases hs : lookupSeries t d' with
      | none =>
        rw [if_neg (by simpa using (lookupSeries_eq_none_iff t d').mp hs)]
        rfl
      | some v =>
        have hd' : d' ∈ t.map (·.1) := by
          by_contra hd'
          rw [(lookupSeries_eq_none_iff t d').mpr hd'] at hs
          exact Option.noConfusion hs
        rw [if_pos (by simpa using hd'), List.map_cons, List.map_nil, hs]
        rfl
    have := foldl_merge2_spec ts ((1 : Nat), tempTable t) [t] rfl hbase d
    rw [mergeTemps]
    simpa using this

theorem buildTemps_recognized (rows : List Row) :
    ∀ (ms : List String) (last : Option (List (Nat × ℚ))),
      (∀ m ∈ ms, m ∈ sum_metrics ∨ m ∈ median_metrics) →
      buildTemps rows ms last = some (ms.map (fun m => seriesFor m rows))
  | [], _, _ => rfl
  | m :: ms, last, h => by
    have htail : ∀ x ∈ ms, x ∈ sum_metrics ∨ x ∈ median_metrics :=
      fun x hx => h x (List.mem_cons_of_mem _ hx)
    by_cases hs : m ∈ sum_metrics
    · simp only [buildTemps]
      rw [if_pos hs, buildTemps_recognized rows ms _ htail]
      simp [seriesFor, hs]
    · have hm : m ∈ median_metrics := (h m (List.mem_cons_self m ms)).resolve_left hs
      simp only [buildTemps]
      rw [if_neg hs, if_pos hm, buildTemps_recognized rows ms _ htail]
      simp [seriesFor, hs]

/-- C5: for a nonempty list of recognized metric names, `aggregate_data`
succeeds and its merge is a full outer join on the date key: the merged
table has an entry exactly for the dates appearing in at least one
requested metric's series, and a metric lacking that date carries a
missing (`none`) cell there, never 0. -/
theorem claim_C5_outer_join (rows : List Row) (metrics : List String)
    (hrec : ∀ m ∈ metrics, m ∈ sum_metrics ∨ m ∈ median_metrics)
    (hne : metrics ≠ []) :
    ∃ tbl, aggregate_data rows metrics = some tbl ∧
      ∀ d, lookupT tbl d
        = if ∃ m ∈ metrics, d ∈ (seriesFor m rows).map (·.1)
          then some (metrics.map (fun m => lookupSeries (seriesFor m rows) d))
          else none := by
  refine ⟨mergeTemps (metrics.map (fun m => seriesFor m rows)), ?_, ?_⟩
  · rw [aggregate_data, buildTemps_recognized rows metrics none hrec]
    rfl
  · intro d
    rw [mergeTemps_spec _ (by simpa using hne) d, List.map_map]
    refine if_congr ?_ rfl rfl
    simp

theorem claim_C5_witness :
    (∀ m ∈ ["Spend", "CPC"], m ∈ sum_metrics ∨ m ∈ median_metrics)
    ∧ (["Spend", "CPC"] ≠ ([] : List String))
    ∧ (∃ tbl, aggregate_data exRows ["Spend", "CPC"] = some tbl ∧
        ∀ d, lookupT tbl d
          = if ∃ m ∈ ["Spend", "CPC"], d ∈ (seriesFor m exRows).map (·.1)
            then some ((["Spend", "CPC"]).map
              (fun m => lookupSeries (seriesFor m exRows) d))
            else none) :=
  ⟨by decide, by decide,
    claim_C5_outer_join exRows ["Spend", "CPC"] (by decide) (by decide)⟩

theorem valsAt_append (m : String) (d : Nat) (l1 l2 : List Row) :
    valsAt m d (l1 ++ l2) = valsAt m d l1 ++ valsAt m d l2 := by
  rw [valsAt, valsAt, valsAt, List.filter_append, List.filterMap_append]

theorem sumValue_eq (m : String) (d : Nat) (rows : List Row) :
    sumValue m d rows = (valsAt m d rows).sum := by
  rw [sumValue, lookupSeries_sumSeries]
  by_cases h : d ∈ rows.map (·.weDate)
  · rw [if_pos h]
    rfl
  · rw [if_neg h]
    have hnil : valsAt m d rows = [] := by
      rw [valsAt, List.eq_nil_iff_forall_not_mem]
      intro v hv
      rcases List.mem_filterMap.mp hv with ⟨r, hrf, -⟩
      rcases List.mem_filter.mp hrf with ⟨hr, hrd⟩
      exact h (List.mem_map.mpr ⟨r, hr, by simpa using hrd⟩)
    rw [hnil]
    rfl

theorem valsAt_filter_date (m : String) (d : Nat) (rows : List Row) :
    valsAt m d (rows.filter (fun r => decide (r.weDate = d))) = valsAt m d rows := by
  rw [valsAt, valsAt, List.filter_filter]
  congr 1
  exact List.filter_congr (fun r _ => by simp)

/-- C7: for a SUM-class metric and a date, splitting the rows bearing that
date into pieces splits the aggregated sum: the sum over the whole dataset
equals the sum of the per-piece aggregated sums (a piece lacking the date
contributes 0). -/
theorem claim_C7_sum_homomorphism (m : String) (hm : m ∈ sum_metrics)
    (d : Nat) (rows : List Row) (parts : List (List Row))
    (hpart : parts.flatten = rows.filter (fun r => decide (r.weDate = d))) :
    sumValue m d rows = (parts.map (fun p => sumValue m d p)).sum := by
  have hflat : ∀ ps : List (List Row),
      (valsAt m d ps.flatten).sum = (ps.map (fun p => (valsAt m d p).sum)).sum := by
    intro ps
    induction ps with
    | nil => rfl
    | cons p ps ih =>
      rw [List.flatten_cons, valsAt_append, List.sum_append, ih, List.map_cons,
        List.sum_cons]
  have h1 : sumValue m d rows = (valsAt m d parts.flatten).sum := by
    rw [hpart, valsAt_filter_date, sumValue_eq]
  rw [h1, hflat]
  congr 1
  exact List.map_congr_left (fun p _ => (sumValue_eq m d p).symm)

theorem claim_C7_witness :
    ("Spend" ∈ sum_metrics)
    ∧ ([[mkRow 6 none (some 10)], [mkRow 6 none (some 20)]].flatten
        = c4Rows.filter (fun r => decide (r.weDate = 6)))
    ∧ sumValue "Spend" 6 c4Rows
        = ([[mkRow 6 none (some 10)], [mkRow 6 none (some 20)]].map
            (fun p => sumValue "Spend" 6 p)).sum :=
  ⟨by decide, by with_unfolding_all decide,
    claim_C7_sum_homomorphism "Spend" (by decide) 6 c4Rows
      [[mkRow 6 none (some 10)], [mkRow 6 none (some 20)]]
      (by with_unfolding_all decide)⟩

theorem claim_C4_witness :
    ("Spend" ∈ sum_metrics)
    ∧ ((lookupSeries (sumSeries "Spend" c4Rows) 6
        = if ∃ r ∈ c4Rows, r.weDate = 6
          then some (((c4Rows.filter (fun r => decide (r.weDate = 6))).filterMap
              (metricValue "Spend")).sum)
          else none)
      ∧ lookupSeries (sumSeries "Spend" c4Rows) 6 = some 30
      ∧ lookupSeries (sumSeries "Spend" c4Rows) 13 = some 5) :=
  ⟨by decide, claim_C4_sum_by_date "Spend" (by decide) c4Rows 6⟩

/-! ### Date uniqueness of the merged table -/

theorem sumSeries_keys (m : String) (rows : List Row) :
    (sumSeries m rows).map (·.1) = sortedDates (rows.map (·.weDate)) := by
  rw [sumSeries, List.map_map]
  exact List.map_id _

theorem medianSeries_keys (m : String) (rows : List Row) :
    (medianSeries m rows).map (·.1)
      = sortedDates ((posRows m rows).map (·.weDate)) := by
  rw [medianSeries, List.map_map]
  exact List.map_id _

theorem seriesFor_keys_nodup (m : String) (rows : List Row) :
    ((seriesFor m rows).map (·.1)).Nodup := by
  rw [seriesFor]
  split
  · rw [sumSeries_keys]
    exact nodup_sortedDates _
  · rw [medianSeries_keys]
    exact nodup_sortedDates _

theorem foldl_merge2_keys_nodup (ts : List (Nat × MergedTable))
    (acc : Nat × MergedTable) (h : ((acc.2).map (·.1)).Nodup) :
    (((ts.foldl merge2 acc).2).map (·.1)).Nodup := by
  induction ts generalizing acc with
  | nil => exact h
  | cons t ts ih =>
    rw [List.foldl_cons]
    refine ih _ ?_
    rw [merge2_keys]
    exact nodup_sortedDates _

theorem mergeTemps_keys_nodup (temps : List (List (Nat × ℚ)))
    (h : ∀ t ∈ temps, (t.map (·.1)).Nodup) :
    ((mergeTemps temps).map (·.1)).Nodup := by
  cases temps with
  | nil => exact List.nodup_nil
  | cons t ts =>
    rw [mergeTemps]
    refine foldl_merge2_keys_nodup _ _ ?_
    dsimp only
    rw [tempTable_keys]
    exact h t (List.mem_cons_self _ _)

/-- C10: for a nonempty list of recognized metric names, `aggregate_data`
succeeds, each per-metric series has pairwise-distinct dates, and the merged
table has at most one row per date. -/
theorem claim_C10_date_uniqueness (rows : List Row) (metrics : List String)
    (hrec : ∀ m ∈ metrics, m ∈ sum_metrics ∨ m ∈ median_metrics)
    (hne : metrics ≠ []) :
    ∃ tbl, aggregate_data rows metrics = some tbl ∧
      (tbl.map (·.1)).Nodup ∧
      ∀ m ∈ metrics, ((seriesFor m rows).map (·.1)).Nodup := by
  refine ⟨mergeTemps (metrics.map (fun m => seriesFor m rows)), ?_, ?_, ?_⟩
  · rw [aggregate_data, buildTemps_recognized rows metrics none hrec]
    rfl
  · refine mergeTemps_keys_nodup _ (fun t ht => ?_)
    rcases List.mem_map.mp ht with ⟨m, hm, rfl⟩
    exact seriesFor_keys_nodup m rows
  · exact fun m _ => seriesFor_keys_nodup m rows

theorem claim_C10_witness :
    (∀ m ∈ ["CPC", "Spend"], m ∈ sum_metrics ∨ m ∈ median_metrics)
    ∧ (["CPC", "Spend"] ≠ ([] : List String))
    ∧ (∃ tbl, aggregate_data exRows ["CPC", "Spend"] = some tbl ∧
        (tbl.map (·.1)).Nodup ∧
        ∀ m ∈ ["CPC", "Spend"], ((seriesFor m exRows).map (·.1)).Nodup) :=
  ⟨by decide, by decide,
    claim_C10_date_uniqueness exRows ["CPC", "Spend"] (by decide) (by decide)⟩

/-! ### y-axis range -/

theorem maxQ_eq_none_iff (l : List ℚ) : maxQ l = none ↔ l = [] := by
  cases l <;> simp [maxQ]

theorem maxQ_append (a b : List ℚ) :
    maxQ (a ++ b)
      = match maxQ a, maxQ b with
        | none, y => y
        | some x, none => some x
        | some x, some y => some (max x y) := by
  induction a with
  | nil =>
    rw [List.nil_append]
    cases maxQ b <;> rfl
  | cons x xs ih =>
    rw [List.cons_append]
    simp only [maxQ, ih]
    cases hxs : maxQ xs <;> cases hb : maxQ b <;> simp [max_assoc]

theorem foldl_pyMaxStep (ls : List (Option ℚ)) (c : ℚ) :
    ls.foldl pyMaxStep (some c)
      = some (match maxQ (ls.filterMap id) with
              | none => c
              | some m => max c m) := by
  induction ls generalizing c with
  | nil => rfl
  | cons x ls ih =>
    cases x with
    | none =>
      rw [List.foldl_cons, List.filterMap_cons_none (rfl : id (none : Option ℚ) = none)]
      exact ih c
    | some v =>
      rw [List.foldl_cons, List.filterMap_cons_some (rfl : id (some v) = some v)]
      have hstep : pyMaxStep (some c) (some v) = some (max c v) := rfl
      rw [hstep, ih (max c v)]
      simp only [maxQ]
      cases maxQ (ls.filterMap id) <;> simp [max_assoc]

theorem maxQ_colMaxes (t : MergedTable) (js : List Nat) :
    maxQ ((colMaxes t js).filterMap id) = maxQ (allColVals t js) := by
  induction js with
  | nil => rfl
  | cons j js ih =>
    have h1 : colMaxes t (j :: js) = maxQ (colVals t j) :: colMaxes t js := rfl
    have h2 : allColVals t (j :: js) = colVals t j ++ allColVals t js := by
      rw [allColVals, List.map_cons, List.flatten_cons]
      rfl
    rw [h1, h2, maxQ_append]
    cases hv : maxQ (colVals t j) with
    | none =>
      rw [List.filterMap_cons_none (rfl : id (none : Option ℚ) = none), ih]
    | some mj =>
      rw [List.filterMap_cons_some (rfl : id (some mj) = some mj)]
      simp only [maxQ, ih]
      cases maxQ (allColVals t js) <;> rfl

/-- C9 is falsified by the code on a table whose first displayed column is
entirely missing: the Python builtin `max` keeps a leading NaN (every
comparison against NaN is false), so the code's y-axis bound is NaN rather
than 1.1 times the maximum-ignoring-missing (here 30, which would give the
range `[0, 33]`). -/
theorem claim_C9_counterexample :
    (([0, 1] : List Nat) ≠ [])
    ∧ maxQ (allColVals c9BadTable [0, 1]) = some 30
    ∧ plot_metric_range c9BadTable [0, 1] ≠ some (0, 30 * (11 / 10)) := by
  with_unfolding_all decide

/-- C9 (amended): for a merged table and a displayed-column list whose first
column holds at least one present value, the computed y-axis range is
`[0, M * 1.1]` where `M` is the maximum over all present entries of the
requested columns (missing entries, and entirely-missing non-first columns,
are ignored). -/
theorem claim_C9_yaxis_range (t : MergedTable) (j : Nat) (js : List Nat)
    (hfirst : colVals t j ≠ []) :
    ∃ M, maxQ (allColVals t (j :: js)) = some M
      ∧ plot_metric_range t (j :: js) = some (0, M * (11 / 10)) := by
  have hmj : ∃ mj, maxQ (colVals t j) = some mj := by
    cases hv : maxQ (colVals t j) with
    | none => exact absurd ((maxQ_eq_none_iff _).mp hv) hfirst
    | some mj => exact ⟨mj, rfl⟩
  rcases hmj with ⟨mj, hmj⟩
  have h2 : allColVals t (j :: js) = colVals t j ++ allColVals t js := by
    rw [allColVals, List.map_cons, List.flatten_cons]
    rfl
  have hb : builtinMax (colMaxes t (j :: js))
      = some (match maxQ (allColVals t js) with
              | none => mj
              | some m => max mj m) := by
    have h1 : colMaxes t (j :: js) = some mj :: colMaxes t js := by
      rw [colMaxes, List.map_cons, hmj]
      rfl
    rw [h1]
    show (colMaxes t js).foldl pyMaxStep (some mj) = _
    rw [foldl_pyMaxStep, maxQ_colMaxes]
  have hm : maxQ (allColVals t (j :: js))
      = some (match maxQ (allColVals t js) with
              | none => mj
              | some m => max mj m) := by
    rw [h2, maxQ_append, hmj]
    cases maxQ (allColVals t js) <;> rfl
  refine ⟨_, hm, ?_⟩
  rw [plot_metric_range, hb]
  rfl

theorem claim_C9_witness :
    (colVals c9Table 0 ≠ [])
    ∧ (∃ M, maxQ (allColVals c9Table [0, 1]) = some M
        ∧ plot_metric_range c9Table [0, 1] = some (0, M * (11 / 10))) :=
  ⟨by with_unfolding_all decide,
    claim_C9_yaxis_range c9Table 0 [1] (by with_unfolding_all decide)⟩

/-! ### Unrecognized metric names -/

/-- C1 is falsified by the code: `agg_dfs.append(temp)` sits outside the
`if`/`elif` dispatch of `aggregate_data`, so a metric name in neither class
is not skipped — with no previously assigned `temp` the append raises
`UnboundLocalError` (modelled `none`), and after a recognized metric the
previous metric's frame is appended a second time, so the result differs
from simply dropping the unknown name. -/
theorem claim_C1_unrecognized_metric :
    aggregate_data exRows ["Revenue"] = none
    ∧ aggregate_data exRows ["Spend", "Revenue"]
        ≠ aggregate_data exRows ["Spend"] := by
  with_unfolding_all decide
